import Mathlib

/-!
Verification of the MWS client library (lib/mws.js, lib/orders.js):
a shallow embedding of the request canonicalization, signing and the
operation wrappers, with theorems checking the specification's claims.

JavaScript objects are modelled as association lists of string pairs
(JS objects have unique string keys and preserve insertion order);
JS strings are Lean strings (lists of unicode scalar values); a JS
function that can throw is modelled as returning an Option, with
none standing for the thrown exception.
-/

namespace Mws

/-! ## Generic string and association-list helpers -/

/-- s.replace(/c/g, r): replace every occurrence of the character c by
the string r (the JS replacements used in mws.js are all on single
characters). -/
def replaceChar (c : Char) (r : List Char) (s : String) : String :=
  ⟨s.data.flatMap (fun x => if x = c then r else [x])⟩

/-- value.replace(/:/g, "%3A") from generateSignature. -/
def substColons (s : String) : String :=
  replaceChar ':' ['%', '3', 'A'] s

/-- Whether pat occurs as a contiguous substring of l; this is the JS
regex test /.*pat.*/.test(s) for a pattern of plain characters. -/
def containsSeq (pat : List Char) : List Char → Bool
  | [] => pat.isEmpty
  | c :: rest => pat.isPrefixOf (c :: rest) || containsSeq pat rest

/-- /.*Date.*/g.test(key) || /.*Created.*/g.test(key): the keys whose
values get the colon substitution in generateSignature. -/
def dateCreatedTest (k : String) : Bool :=
  containsSeq "Date".data k.data || containsSeq "Created".data k.data

/-- tstamp.replace(/\..+/, ''): delete everything from the first '.'
that is followed by at least one character. -/
def stripFracChars : List Char → List Char
  | [] => []
  | '.' :: [] => ['.']
  | '.' :: _ :: _ => []
  | c :: rest => c :: stripFracChars rest

/-- tstamp.replace(/\..+/, '') on strings. -/
def stripFrac (s : String) : String :=
  ⟨stripFracChars s.data⟩

/-- Lexicographic comparison of char lists by code point; JS
Array.prototype.sort() compares strings this way (all keys sorted in
this repository are ASCII, where UTF-16 order and code-point order
agree). -/
def charListLe : List Char → List Char → Bool
  | [], _ => true
  | _ :: _, [] => false
  | a :: as, b :: bs =>
    if a.toNat < b.toNat then true
    else if b.toNat < a.toNat then false
    else charListLe as bs

/-- String comparison used to model keys.sort(). -/
def strLe (a b : String) : Bool :=
  charListLe a.data b.data

/-- Insert a string into a sorted list (helper for the sort model). -/
def insertSorted (a : String) : List String → List String
  | [] => [a]
  | b :: rest => if strLe a b then a :: b :: rest else b :: insertSorted a rest

/-- keys.sort(): insertion sort by strLe.  On lists of distinct keys
this produces the unique sorted permutation, which is what
Array.prototype.sort() returns. -/
def sortStrings : List String → List String
  | [] => []
  | a :: rest => insertSorted a (sortStrings rest)

/-- obj[k] read on an association list: value of the first pair whose
key is k. -/
def lookupStr (k : String) : List (String × String) → Option String
  | [] => none
  | p :: rest => if p.1 = k then some p.2 else lookupStr k rest

/-- obj[k] = v when k is already a key: replace the value of the first
pair with key k, keeping its position (JS objects keep the original
insertion position on update). -/
def updateAssoc (k v : String) : List (String × String) → List (String × String)
  | [] => []
  | p :: rest => if p.1 = k then (k, v) :: rest else p :: updateAssoc k v rest

/-- Whether the association list has the key k. -/
def hasKey (k : String) (l : List (String × String)) : Bool :=
  (lookupStr k l).isSome

/-- obj[k] = v on a JS object: update in place if the key exists,
append otherwise. -/
def setKey (l : List (String × String)) (k v : String) : List (String × String) :=
  if hasKey k l then updateAssoc k v l else l ++ [(k, v)]

/-- _.extend(dest, src): assign every pair of src onto dest, in order. -/
def extendAssoc (dest src : List (String × String)) : List (String × String) :=
  src.foldl (fun d p => setKey d p.1 p.2) dest

/-- delete obj[k]: remove the pair with key k. -/
def removeKey (k : String) : List (String × String) → List (String × String)
  | [] => []
  | p :: rest => if p.1 = k then rest else p :: removeKey k rest

/-! ## Percent encoding (encodeURIComponent / decodeURIComponent) -/

/-- The characters encodeURIComponent leaves unescaped
(A-Z a-z 0-9 - _ . ! ~ * ' ( )); node's querystring.escape uses the
same set. -/
def isUnreservedURI (c : Char) : Bool :=
  ('A' ≤ c && c ≤ 'Z') || ('a' ≤ c && c ≤ 'z') || ('0' ≤ c && c ≤ '9') ||
  c = '-' || c = '_' || c = '.' || c = '!' || c = '~' || c = '*' ||
  c = '\'' || c = '(' || c = ')'

/-- UTF-8 bytes of a unicode scalar value. -/
def utf8EncodeChar (c : Char) : List Nat :=
  let n := c.toNat
  if n < 128 then [n]
  else if n < 2048 then [192 + n / 64, 128 + n % 64]
  else if n < 65536 then [224 + n / 4096, 128 + (n / 64) % 64, 128 + n % 64]
  else [240 + n / 262144, 128 + (n / 4096) % 64, 128 + (n / 64) % 64, 128 + n % 64]

/-- Uppercase hex digit, as produced by encodeURIComponent. -/
def hexDigitChar (n : Nat) : Char :=
  if n < 10 then Char.ofNat (48 + n) else Char.ofNat (55 + n)

/-- One percent-escaped byte, e.g. 32 ↦ "%20". -/
def percentByte (b : Nat) : List Char :=
  ['%', hexDigitChar (b / 16), hexDigitChar (b % 16)]

/-- encodeURIComponent on a character list. -/
def encodeChars (l : List Char) : List Char :=
  l.flatMap (fun c =>
    if isUnreservedURI c then [c] else (utf8EncodeChar c).flatMap percentByte)

/-- encodeURIComponent. -/
def encodeURIComponent (s : String) : String :=
  ⟨encodeChars s.data⟩

/-- Value of a hex digit (both cases accepted, as decodeURIComponent
does). -/
def hexVal (c : Char) : Option Nat :=
  if '0' ≤ c ∧ c ≤ '9' then some (c.toNat - 48)
  else if 'A' ≤ c ∧ c ≤ 'F' then some (c.toNat - 55)
  else if 'a' ≤ c ∧ c ≤ 'f' then some (c.toNat - 87)
  else none

/-- The byte of two hex digits. -/
def hex2 (h1 h2 : Char) : Option Nat :=
  match hexVal h1, hexVal h2 with
  | some hi, some lo => some (16 * hi + lo)
  | _, _ => none

/-- Decode the UTF-8 sequence whose lead byte b has just been read,
consuming the continuation "%XX" groups from the remaining input:
strict UTF-8 (continuation ranges per lead byte, overlong forms and
surrogates rejected); none models the thrown URIError.  Returns the
decoded character and the rest of the input. -/
def decodeByteSeq (b : Nat) (rest1 : List Char) : Option (Char × List Char) :=
  if b < 128 then some (Char.ofNat b, rest1)
  else if b < 194 then none
  else if b < 224 then
    -- two-byte sequence
    match rest1 with
    | p2 :: g1 :: g2 :: rest2 =>
      if p2 = '%' then
        match hex2 g1 g2 with
        | some b2 =>
          if 128 ≤ b2 ∧ b2 < 192 then
            some (Char.ofNat ((b - 192) * 64 + (b2 - 128)), rest2)
          else none
        | none => none
      else none
    | _ => none
  else if b < 240 then
    -- three-byte sequence
    match rest1 with
    | p2 :: g1 :: g2 :: p3 :: g3 :: g4 :: rest2 =>
      if p2 = '%' ∧ p3 = '%' then
        match hex2 g1 g2, hex2 g3 g4 with
        | some b2, some b3 =>
          if (if b = 224 then 160 ≤ b2 ∧ b2 < 192
              else if b = 237 then 128 ≤ b2 ∧ b2 < 160
              else 128 ≤ b2 ∧ b2 < 192) ∧ 128 ≤ b3 ∧ b3 < 192 then
            some (Char.ofNat ((b - 224) * 4096 + (b2 - 128) * 64 + (b3 - 128)), rest2)
          else none
        | _, _ => none
      else none
    | _ => none
  else if b < 245 then
    -- four-byte sequence
    match rest1 with
    | p2 :: g1 :: g2 :: p3 :: g3 :: g4 :: p4 :: g5 :: g6 :: rest2 =>
      if p2 = '%' ∧ p3 = '%' ∧ p4 = '%' then
        match hex2 g1 g2, hex2 g3 g4, hex2 g5 g6 with
        | some b2, some b3, some b4 =>
          if (if b = 240 then 144 ≤ b2 ∧ b2 < 192
              else if b = 244 then 128 ≤ b2 ∧ b2 < 144
              else 128 ≤ b2 ∧ b2 < 192) ∧ 128 ≤ b3 ∧ b3 < 192 ∧ 128 ≤ b4 ∧ b4 < 192 then
            some (Char.ofNat
              ((b - 240) * 262144 + (b2 - 128) * 4096 + (b3 - 128) * 64 + (b4 - 128)), rest2)
          else none
        | _, _, _ => none
      else none
    | _ => none
  else none

/-- Continue with the lead byte if the two hex digits were valid. -/
def decodeWithByte : Option Nat → List Char → Option (Char × List Char)
  | some b, rest1 => decodeByteSeq b rest1
  | none, _ => none

/-- A '%' has been read: two hex digits must follow, then the rest of
the byte sequence. -/
def decodePercentSeq : List Char → Option (Char × List Char)
  | h1 :: h2 :: rest1 => decodeWithByte (hex2 h1 h2) rest1
  | _ => none

/-- Decode one character of a percent-encoded string: a literal
character is copied, a '%' starts a percent sequence.  Always
consumes at least one character of the input. -/
def decodeOne : List Char → Option (Char × List Char)
  | [] => none
  | c :: rest => if c = '%' then decodePercentSeq rest else some (c, rest)

/-- Decoding loop; the fuel only bounds the number of steps and
l.length always suffices since every step consumes at least one
character. -/
def decodeCharsGo : Nat → List Char → Option (List Char)
  | _, [] => some []
  | 0, _ :: _ => none
  | fuel + 1, c :: rest =>
    match decodeOne (c :: rest) with
    | some (d, rem) =>
      (match decodeCharsGo fuel rem with
       | some ds => some (d :: ds)
       | none => none)
    | none => none

/-- decodeURIComponent on a character list. -/
def decodeChars (l : List Char) : Option (List Char) :=
  decodeCharsGo l.length l

/-- decodeURIComponent; none models the thrown URIError. -/
def decodeURIComponent (s : String) : Option String :=
  (decodeChars s.data).map (fun l => ⟨l⟩)

/-- All characters of a string are ASCII. -/
def asciiOnly (s : String) : Bool :=
  s.data.all (fun c => c.toNat < 128)

/-! ## SHA-256, HMAC and base64

node's crypto.createHmac("sha256", key).update(msg).digest("base64"),
modelled bit-for-bit (FIPS 180-4) so that concrete signatures can be
evaluated.  Bytes are Nat < 256, 32-bit words are Nat < 2^32. -/

/-- Truncate to a 32-bit word. -/
def w32 (n : Nat) : Nat := n % 4294967296

/-- Right rotation of a 32-bit word. -/
def rotr (n x : Nat) : Nat := (x >>> n) ||| w32 (x <<< (32 - n))

/-- Bitwise complement of a 32-bit word. -/
def not32 (x : Nat) : Nat := Nat.xor x 4294967295

/-- SHA-256 Ch function. -/
def shaCh (x y z : Nat) : Nat := Nat.xor (x &&& y) (not32 x &&& z)

/-- SHA-256 Maj function. -/
def shaMaj (x y z : Nat) : Nat := Nat.xor (Nat.xor (x &&& y) (x &&& z)) (y &&& z)

/-- SHA-256 Σ0. -/
def bigSigma0 (x : Nat) : Nat := Nat.xor (Nat.xor (rotr 2 x) (rotr 13 x)) (rotr 22 x)

/-- SHA-256 Σ1. -/
def bigSigma1 (x : Nat) : Nat := Nat.xor (Nat.xor (rotr 6 x) (rotr 11 x)) (rotr 25 x)

/-- SHA-256 σ0. -/
def smallSigma0 (x : Nat) : Nat := Nat.xor (Nat.xor (rotr 7 x) (rotr 18 x)) (x >>> 3)

/-- SHA-256 σ1. -/
def smallSigma1 (x : Nat) : Nat := Nat.xor (Nat.xor (rotr 17 x) (rotr 19 x)) (x >>> 10)

/-- The 64 SHA-256 round constants of FIPS 180-4 (decimal). -/
def shaK : List Nat :=
  [1116352408, 1899447441, 3049323471, 3921009573, 961987163, 1508970993,
   2453635748, 2870763221, 3624381080, 310598401, 607225278, 1426881987,
   1925078388, 2162078206, 2614888103, 3248222580, 3835390401, 4022224774,
   264347078, 604807628, 770255983, 1249150122, 1555081692, 1996064986,
   2554220882, 2821834349, 2952996808, 3210313671, 3336571891, 3584528711,
   113926993, 338241895, 666307205, 773529912, 1294757372, 1396182291,
   1695183700, 1986661051, 2177026350, 2456956037, 2730485921, 2820302411,
   3259730800, 3345764771, 3516065817, 3600352804, 4094571909, 275423344,
   430227734, 506948616, 659060556, 883997877, 958139571, 1322822218,
   1537002063, 1747873779, 1955562222, 2024104815, 2227730452, 2361852424,
   2428436474, 2756734187, 3204031479, 3329325298]

/-- The initial SHA-256 hash state of FIPS 180-4 (decimal). -/
def shaH0 : List Nat :=
  [1779033703, 3144134277, 1013904242, 2773480762,
   1359893119, 2600822924, 528734635, 1541459225]

/-- Extend the 16 block words to the 64-word message schedule. -/
def shaExtend : List Nat → Nat → List Nat
  | w, 0 => w
  | w, n + 1 =>
    let i := w.length
    let nw := w32 (smallSigma1 (w.getD (i - 2) 0) + w.getD (i - 7) 0 +
      smallSigma0 (w.getD (i - 15) 0) + w.getD (i - 16) 0)
    shaExtend (w ++ [nw]) n

/-- One compression round. -/
def shaRound (st : List Nat) (k w : Nat) : List Nat :=
  match st with
  | [a, b, c, d, e, f, g, h] =>
    let t1 := w32 (h + bigSigma1 e + shaCh e f g + k + w)
    let t2 := w32 (bigSigma0 a + shaMaj a b c)
    [w32 (t1 + t2), a, b, c, w32 (d + t1), e, f, g]
  | _ => st

/-- Compress one 64-byte block (given as 16 words) into the state. -/
def shaCompress (hs ws16 : List Nat) : List Nat :=
  let ws := shaExtend ws16 48
  let fin := (List.range 64).foldl (fun st t => shaRound st (shaK.getD t 0) (ws.getD t 0)) hs
  List.zipWith (fun x y => w32 (x + y)) hs fin

/-- Big-endian bytes of the 64-bit message bit length. -/
def lenBytes64 (n : Nat) : List Nat :=
  (List.range 8).map (fun i => (n >>> (8 * (7 - i))) % 256)

/-- SHA-256 padding: 0x80, zeros to 56 mod 64, 8 length bytes. -/
def sha256Pad (msg : List Nat) : List Nat :=
  let l := msg.length
  let zeros := (119 - l % 64) % 64
  msg ++ [128] ++ List.replicate zeros 0 ++ lenBytes64 (8 * l)

/-- Group four bytes into one big-endian 32-bit word each. -/
def bytesToWords : List Nat → List Nat
  | b1 :: b2 :: b3 :: b4 :: rest =>
    (b1 * 16777216 + b2 * 65536 + b3 * 256 + b4) :: bytesToWords rest
  | _ => []

/-- Split the padded message into 64-byte blocks (fuel-driven so it
evaluates inside the kernel). -/
def chunk64Go : Nat → List Nat → List (List Nat)
  | 0, _ => []
  | _, [] => []
  | fuel + 1, l => l.take 64 :: chunk64Go fuel (l.drop 64)

/-- 64-byte blocks of a list. -/
def chunk64 (l : List Nat) : List (List Nat) :=
  chunk64Go (l.length / 64 + 1) l

/-- Big-endian bytes of one 32-bit word. -/
def wordBytes (w : Nat) : List Nat :=
  [(w >>> 24) % 256, (w >>> 16) % 256, (w >>> 8) % 256, w % 256]

/-- SHA-256 digest (32 bytes) of a byte list. -/
def sha256 (msg : List Nat) : List Nat :=
  let blocks := chunk64 (sha256Pad msg)
  (blocks.foldl (fun hs b => shaCompress hs (bytesToWords b)) shaH0).flatMap wordBytes

/-- HMAC-SHA-256 (RFC 2104) over byte lists. -/
def hmacSha256 (key msg : List Nat) : List Nat :=
  let k0 := if key.length > 64 then sha256 key else key
  let k1 := k0 ++ List.replicate (64 - k0.length) 0
  let ipad := k1.map (fun b => Nat.xor b 54)
  let opad := k1.map (fun b => Nat.xor b 92)
  sha256 (opad ++ sha256 (ipad ++ msg))

/-- The base64 alphabet. -/
def b64Alphabet : List Char :=
  "ABCDEFGHIJKLMNOPQRSTUVWXYZabcdefghijklmnopqrstuvwxyz0123456789+/".data

/-- Character of a 6-bit group. -/
def b64Char (n : Nat) : Char := b64Alphabet.getD n 'A'

/-- Standard base64 encoding with padding. -/
def base64Encode : List Nat → List Char
  | [] => []
  | [a] =>
    [b64Char (a >>> 2), b64Char ((a % 4) <<< 4), '=', '=']
  | [a, b] =>
    [b64Char (a >>> 2), b64Char (((a % 4) <<< 4) + (b >>> 4)), b64Char ((b % 16) <<< 2), '=']
  | a :: b :: c :: rest =>
    b64Char (a >>> 2) :: b64Char (((a % 4) <<< 4) + (b >>> 4)) ::
    b64Char (((b % 16) <<< 2) + (c >>> 6)) :: b64Char (c % 64) :: base64Encode rest

/-- UTF-8 bytes of a string. -/
def utf8Str (s : String) : List Nat :=
  s.data.flatMap utf8EncodeChar

/-- crypto.createHmac("sha256", key).update(msg).digest("base64"). -/
def hmacSHA256B64 (key msg : String) : String :=
  ⟨base64Encode (hmacSha256 (utf8Str key) (utf8Str msg))⟩

/-! ## lib/mws.js -/

/-- The configuration object read by mws.js (spec section 6). -/
structure Config where
  AmazonServicesURL : String
  SellerId : String
  AWSAccessKeyId : String
  SecretKey : String
  MWSAuthToken : String
deriving DecidableEq

/-- One entry of the endpoint table. -/
structure EndpointDesc where
  type : String
  version : String
deriving DecidableEq

/-- The static endpoint table of mws.js; endpoint[t] for an unknown t
is undefined (none). -/
def endpoint (t : String) : Option EndpointDesc :=
  if t = "Products" then some ⟨"/Products/", "2011-10-01"⟩
  else if t = "Sellers" then some ⟨"/Sellers/", "2011-07-01"⟩
  else if t = "Orders" then some ⟨"/Orders/", "2013-09-01"⟩
  else if t = "Feeds" then some ⟨"/Feeds/", "2009-01-01"⟩
  else if t = "Reports" then some ⟨"/Reports/", "2009-01-01"⟩
  else if t = "Recommendations" then some ⟨"/Recommendations/", "2013-04-01"⟩
  else if t = "FulfillmentInventory" then some ⟨"/FulfillmentInventory/", "2010-10-01"⟩
  else none

/-- generateSignature, steps 1-2: the params object copied into a new
object in sorted key order (the loop over keys.sort()). -/
def sortedAssoc (params : List (String × String)) : List (String × String) :=
  (sortStrings (params.map (fun p => p.1))).map
    (fun k => (k, (lookupStr k params).getD ""))

/-- generateSignature, steps 2-3: the sorted copy after
sorted.Timestamp = params.Timestamp.replace(/:/g,"%3A") (a throw on a
mapping without Timestamp, hence Option) and after the loop that
replaces colons in every value whose key matches /.*Date.*/ or
/.*Created.*/. -/
def canonicalPairs (params : List (String × String)) : Option (List (String × String)) :=
  match lookupStr "Timestamp" params with
  | none => none
  | some t =>
    let s1 := updateAssoc "Timestamp" (substColons t) (sortedAssoc params)
    some (s1.map (fun p => if dateCreatedTest p.1 then (p.1, substColons p.2) else p))

/-- joinedParameters.join('&'): the canonical parameter string. -/
def canonicalParamString (params : List (String × String)) : Option String :=
  (canonicalPairs params).map
    (fun l => String.intercalate "&" (l.map (fun p => p.1 ++ "=" ++ p.2)))

/-- The five whole-string escapes applied to the string-to-sign:
' → %27, * → %2A, ( → %28, ) → %29, space → %20, in that order. -/
def escapeStringToSign (s : String) : String :=
  replaceChar ' ' ['%', '2', '0']
    (replaceChar ')' ['%', '2', '9']
      (replaceChar '(' ['%', '2', '8']
        (replaceChar '*' ['%', '2', 'A']
          (replaceChar '\'' ['%', '2', '7'] s))))

/-- The escaped string-to-sign of generateSignature: the four lines
POST, host, endpoint path + version, canonical parameter string,
joined by newline, then escaped. -/
def stringToSign (config : Config) (params : List (String × String)) (ep : String) :
    Option String :=
  match endpoint ep, canonicalParamString params with
  | some e, some strParams =>
    some (escapeStringToSign (String.intercalate "\n"
      ["POST", config.AmazonServicesURL, e.type ++ e.version, strParams]))
  | _, _ => none

/-- generateSignature(config, params, ep).  The HMAC primitive (node's
crypto module, external to this repository) is passed in as a
function argument taking the secret key and the string to sign;
hmacSHA256B64 is its concrete realization. -/
def generateSignature (hmac : String → String → String) (config : Config)
    (params : List (String × String)) (ep : String) : Option String :=
  (stringToSign config params ep).map (hmac config.SecretKey)

/-- The fixed fields of the paramObj literal in createRequest, in its
insertion order. -/
def fixedParams (action : String) (config : Config) (version tstamp : String) :
    List (String × String) :=
  [("Action", action),
   ("SellerId", config.SellerId),
   ("SignatureVersion", "2"),
   ("SignatureMethod", "HmacSHA256"),
   ("Timestamp", tstamp),
   ("Version", version),
   ("AWSAccessKeyId", config.AWSAccessKeyId),
   ("MWSAuthToken", config.MWSAuthToken)]

/-- paramObj after _.extend(paramObj, params.parameters): the mapping
the signature is computed over (the Signature key is assigned only
after generateSignature returns). -/
def buildParamObj (action : String) (config : Config) (version tstamp : String)
    (parameters : List (String × String)) : List (String × String) :=
  extendAssoc (fixedParams action config version tstamp) parameters

/-- qs.stringify(obj): pairs joined by '&', keys and values
percent-encoded (node's querystring.escape escapes exactly the
encodeURIComponent set). -/
def qsStringify : List (String × String) → String
  | [] => ""
  | [p] => encodeURIComponent p.1 ++ "=" ++ encodeURIComponent p.2
  | p :: rest =>
    encodeURIComponent p.1 ++ "=" ++ encodeURIComponent p.2 ++ "&" ++ qsStringify rest

/-- The fixed key order required by the two ...ByNextToken actions. -/
def orderedKeys9 : List String :=
  ["AWSAccessKeyId", "Action", "SellerId", "SignatureVersion", "Version",
   "Timestamp", "Signature", "SignatureMethod", "NextToken"]

/-- The re-encode check of the fixed-ordering path: decode, and encode
the value only when decoding left it unchanged; a decode throw
(none) aborts createRequest. -/
def maybeEncode (v : String) : Option String :=
  match decodeURIComponent v with
  | none => none
  | some d => some (if d = v then encodeURIComponent v else v)

/-- The key=value parts of the fixed-ordering serialization, one per
key of orderedKeys9.  A key missing from paramObj is read as the JS
undefined, which stringifies to "undefined" both through the decode
check and in the template literal, so it is modelled by getD
"undefined". -/
def fixedOrderParts (paramObj : List (String × String)) : List String → Option (List String)
  | [] => some []
  | k :: ks =>
    match maybeEncode ((lookupStr k paramObj).getD "undefined") with
    | none => none
    | some ev =>
      match fixedOrderParts paramObj ks with
      | none => none
      | some r => some ((k ++ "=" ++ ev) :: r)

/-- The stringifiedParamObj rebuilt by the fixed-ordering loop for
ListOrdersByNextToken / ListOrderItemsByNextToken. -/
def fixedOrderSerialize (paramObj : List (String × String)) : Option String :=
  (fixedOrderParts paramObj orderedKeys9).map (String.intercalate "&")

/-- The outgoing HTTPS POST assembled by createRequest (the transport
itself, response handling and the Content-MD5 header are outside the
model; body is the full request body, and path carries the same
serialized parameter string). -/
structure HttpRequest where
  host : String
  path : String
  body : String
deriving DecidableEq

/-- createRequest(params, cb) up to the https.request call: builds the
timestamp, paramObj, signature and serialized parameter string, and
returns the request to transmit.  tstampRaw is the value of
new Date().toISOString() (an input of the model); none models a
thrown exception (unknown endpoint type, or a URIError from the
fixed-ordering path). -/
def createRequest (hmac : String → String → String) (action : String) (config : Config)
    (parameters : List (String × String)) (tp : String) (tstampRaw : String) :
    Option HttpRequest :=
  let upload := lookupStr "FeedContents" parameters
  let parameters := match upload with
    | some _ => removeKey "FeedContents" parameters
    | none => parameters
  let tstamp := stripFrac tstampRaw ++ "Z"
  match endpoint tp with
  | none => none
  | some e =>
    let paramObj := buildParamObj action config e.version tstamp parameters
    match generateSignature hmac config paramObj tp with
    | none => none
    | some sig =>
      let withSig := extendAssoc paramObj [("Signature", sig)]
      let serialized :=
        if action = "ListOrdersByNextToken" ∨ action = "ListOrderItemsByNextToken" then
          fixedOrderSerialize withSig
        else some (qsStringify withSig)
      match serialized with
      | none => none
      | some str =>
        some { host := config.AmazonServicesURL,
               path := e.type ++ e.version ++ "?" ++ str,
               body := match upload with | some fc => fc | none => str }

/-! ## lib/orders.js -/

/-- A value sitting in one of the optional trailing argument slots
(xml, cb) of a wrapper: missing/undefined, a boolean flag, or a
function.  Only typeof is ever inspected. -/
inductive JsArg where
  | undefinedArg
  | boolean (b : Bool)
  | func
deriving DecidableEq

/-- What a wrapper call amounts to.  warned: console.warn and return,
no callback, no request.  cbError msg: the callback invoked exactly
once with the error object { Error: msg } and result null, no
request.  requested req: the HTTPS request req is issued and the
callback later receives its response.  threw: a TypeError or URIError
escapes (e.g. the error path reached with a non-function callback
slot). -/
inductive Outcome where
  | warned
  | cbError (msg : String)
  | requested (req : HttpRequest)
  | threw
deriving DecidableEq

/-- Whether a request was issued. -/
def Outcome.isRequested : Outcome → Bool
  | .requested _ => true
  | _ => false

/-- The argument juggling at the top of every wrapper:
if typeof xml == 'function' the xml slot is the callback and xml
becomes false; else if typeof xml == 'undefined' the wrapper warns
and returns (none); otherwise xml is used as the flag and the cb slot
is taken as passed (even if it holds no function). -/
def resolveXmlCb (xml cb : JsArg) : Option (Bool × JsArg) :=
  match xml with
  | .func => some (false, .func)
  | .undefinedArg => none
  | .boolean b => some (b, cb)

/-- cb({Error: msg}, null) — a throw when the callback slot holds no
function. -/
def callbackOrThrow : JsArg → String → Outcome
  | .func, msg => .cbError msg
  | _, _ => .threw

/-- Turn the result of createRequest into an outcome. -/
def requestOutcome : Option HttpRequest → Outcome
  | some req => .requested req
  | none => .threw

/-- GetServiceStatus(config, xml, cb). -/
def GetServiceStatus (hmac : String → String → String) (config : Config)
    (xml cb : JsArg) (tstampRaw : String) : Outcome :=
  match resolveXmlCb xml cb with
  | none => .warned
  | some _ => requestOutcome (createRequest hmac "GetServiceStatus" config [] "Orders" tstampRaw)

/-- The params object passed to ListOrders; the wrapper reads exactly
these three properties (via _.has and indexing).  MarketplaceIdList
is itself an object, modelled as an association list. -/
structure OrdersListParams where
  CreatedAfter : Option String
  CreatedBefore : Option String
  MarketplaceIdList : Option (List (String × String))

/-- The regex test /MarketplaceId.Id.[1-9]+/.test(key): an unanchored
match of MarketplaceId, any char, Id, any char, a digit 1-9.
Matching at the head of a char list: -/
def mpMatchAt (l : List Char) : Bool :=
  if "MarketplaceId".data.isPrefixOf l then
    match l.drop 13 with
    | _ :: 'I' :: 'd' :: _ :: d :: _ => decide ('1' ≤ d ∧ d ≤ '9')
    | _ => false
  else false

/-- The unanchored regex search over the whole key. -/
def mpMatch : List Char → Bool
  | [] => false
  | c :: rest => mpMatchAt (c :: rest) || mpMatch rest

/-- /MarketplaceId.Id.[1-9]+/.test(k) on a string key. -/
def mpMatchStr (k : String) : Bool :=
  mpMatch k.data

/-- The MarketplaceIdList loop of ListOrders: counter starts at 1, is
incremented after every entry (matching or not), and the loop breaks
once it exceeds 20; matching entries are copied into parameters. -/
def mpLoop : Nat → List (String × String) → List (String × String)
  | _, [] => []
  | counter, p :: rest =>
    let kept := if mpMatchStr p.1 then [p] else []
    if counter + 1 > 20 then kept else kept ++ mpLoop (counter + 1) rest

/-- The MarketplaceId entries ListOrders forwards. -/
def mpForward (l : List (String × String)) : List (String × String) :=
  mpLoop 1 l

/-- The parameters object ListOrders builds and forwards. -/
def listOrdersParameters (a b : String) (mp : List (String × String)) :
    List (String × String) :=
  [("CreatedAfter", a), ("CreatedBefore", b)] ++ mpForward mp

/-- ListOrders(config, params, xml, cb). -/
def ListOrders (hmac : String → String → String) (config : Config)
    (params : OrdersListParams) (xml cb : JsArg) (tstampRaw : String) : Outcome :=
  match resolveXmlCb xml cb with
  | none => .warned
  | some (_, cbArg) =>
    match params.MarketplaceIdList, params.CreatedAfter, params.CreatedBefore with
    | some mp, some a, some b =>
      requestOutcome (createRequest hmac "ListOrders" config
        (listOrdersParameters a b mp) "Orders" tstampRaw)
    | _, _, _ =>
      callbackOrThrow cbArg "You need to pass parameter MarketplaceId and CreatedAfter and CreatedBefore"

/-- ListOrdersByNextToken(config, params, xml, cb); the NextToken
value is passed through encodeURIComponent before the request is
built. -/
def ListOrdersByNextToken (hmac : String → String → String) (config : Config)
    (params : List (String × String)) (xml cb : JsArg) (tstampRaw : String) : Outcome :=
  match resolveXmlCb xml cb with
  | none => .warned
  | some (_, cbArg) =>
    match lookupStr "NextToken" params with
    | none => callbackOrThrow cbArg "You need to pass parameter NextToken"
    | some tok =>
      requestOutcome (createRequest hmac "ListOrdersByNextToken" config
        [("NextToken", encodeURIComponent tok)] "Orders" tstampRaw)

/-- ListOrderItems(config, params, xml, cb). -/
def ListOrderItems (hmac : String → String → String) (config : Config)
    (params : List (String × String)) (xml cb : JsArg) (tstampRaw : String) : Outcome :=
  match resolveXmlCb xml cb with
  | none => .warned
  | some (_, cbArg) =>
    match lookupStr "AmazonOrderId" params with
    | none => callbackOrThrow cbArg "You need to pass parameter AmazonOrderId"
    | some oid =>
      requestOutcome (createRequest hmac "ListOrderItems" config
        [("AmazonOrderId", oid)] "Orders" tstampRaw)

/-- ListOrderItemsByNextToken(config, params, xml, cb); unlike
ListOrdersByNextToken this wrapper forwards the caller's params
object unmodified as the request parameters. -/
def ListOrderItemsByNextToken (hmac : String → String → String) (config : Config)
    (params : List (String × String)) (xml cb : JsArg) (tstampRaw : String) : Outcome :=
  match resolveXmlCb xml cb with
  | none => .warned
  | some (_, cbArg) =>
    match lookupStr "NextToken" params with
    | none => callbackOrThrow cbArg "You need to pass parameter NextToken"
    | some _ =>
      requestOutcome (createRequest hmac "ListOrderItemsByNextToken" config
        params "Orders" tstampRaw)

/-! ## Reference definitions written from the specification's words
(for the refinement claims; everything above is translated from the
source). -/

/-- Spec 4.1 steps 1-3, stated as one pass: keys sorted
lexicographically ascending (case-sensitive ordinal sort); every
colon in the Timestamp value and in the value of any key whose name
contains "Date" or "Created" replaced by %3A; pairs key=value. -/
def specCanonicalPairs (params : List (String × String)) : List (String × String) :=
  (sortStrings (params.map (fun p => p.1))).map (fun k =>
    let v := (lookupStr k params).getD ""
    (k, if k = "Timestamp" || dateCreatedTest k then substColons v else v))

/-- Spec 4.1 steps 3-6 without the final HMAC: pairs joined as
key=value with &; the string-to-sign assembled as the four lines
POST, host, endpoint path + version, canonical parameter string
joined by newline; then ' * ( ) and space escaped over the whole
string. -/
def specStringToSign (config : Config) (e : EndpointDesc)
    (params : List (String × String)) : String :=
  escapeStringToSign (String.intercalate "\n"
    ["POST", config.AmazonServicesURL, e.type ++ e.version,
     String.intercalate "&" ((specCanonicalPairs params).map (fun p => p.1 ++ "=" ++ p.2))])

/-- Split a char list at every '&' (for reading a query string back). -/
def splitAmp : List Char → List (List Char)
  | [] => [[]]
  | c :: rest =>
    if c = '&' then [] :: splitAmp rest
    else
      match splitAmp rest with
      | g :: gs => (c :: g) :: gs
      | [] => [[c]]

/-- Split a char list at the first '='; without one, everything is the
key and the value is empty. -/
def splitFirstEq : List Char → (List Char × List Char)
  | [] => ([], [])
  | c :: rest =>
    if c = '=' then ([], rest)
    else
      let r := splitFirstEq rest
      (c :: r.1, r.2)

/-- querystring unescaping turns '+' into a space before
percent-decoding. -/
def plusToSpace (l : List Char) : List Char :=
  l.map (fun c => if c = '+' then ' ' else c)

/-- Decode one key=value part of a query string. -/
def parsePart (p : List Char) : Option (String × String) :=
  let kv := splitFirstEq p
  match decodeChars (plusToSpace kv.1), decodeChars (plusToSpace kv.2) with
  | some dk, some dv => some (⟨dk⟩, ⟨dv⟩)
  | _, _ => none

/-- Decode every part. -/
def parseParts : List (List Char) → Option (List (String × String))
  | [] => some []
  | p :: rest =>
    match parsePart p, parseParts rest with
    | some kv, some r => some (kv :: r)
    | _, _ => none

/-- Read a URL-encoded query string back into the key-value mapping it
serializes (the inverse reading used to compare the transmitted
parameter string with the signed mapping). -/
def parseQS (s : String) : Option (List (String × String)) :=
  parseParts (splitAmp s.data)

/-! ## State-passing rendering of generateSignature

For the frame claim: the two live objects of generateSignature are the
caller's params and the local sorted copy; every assignment statement
of the source rebinds sorted (JS strings are immutable, so
sorted[key] = sorted[key].replace(...) builds a fresh string), and
params is only ever read. -/

/-- The two objects in scope inside generateSignature. -/
structure SigObjects where
  params : List (String × String)
  sorted : List (String × String)
deriving DecidableEq

/-- generateSignature with the final state of both objects returned
alongside the signature. -/
def generateSignatureTrace (hmac : String → String → String) (config : Config)
    (params0 : List (String × String)) (ep : String) :
    Option (String × SigObjects) :=
  let st0 : SigObjects := { params := params0, sorted := [] }
  -- var keys = []; for (key in params) keys.push(key); keys.sort();
  let keys := sortStrings (st0.params.map (fun p => p.1))
  -- for (i...) sorted[keys[i]] = params[keys[i]];
  let st1 : SigObjects :=
    { st0 with sorted := keys.map (fun k => (k, (lookupStr k st0.params).getD "")) }
  -- sorted.Timestamp = params.Timestamp.replace(/:/g, "%3A");
  match lookupStr "Timestamp" st1.params with
  | none => none
  | some t =>
    let st2 : SigObjects :=
      { st1 with sorted := updateAssoc "Timestamp" (substColons t) st1.sorted }
    -- the Date/Created loop assigns sorted[key] and pushes key=value
    let st3 : SigObjects :=
      { st2 with sorted :=
          st2.sorted.map (fun p => if dateCreatedTest p.1 then (p.1, substColons p.2) else p) }
    let strParams := String.intercalate "&" (st3.sorted.map (fun p => p.1 ++ "=" ++ p.2))
    match endpoint ep with
    | none => none
    | some e =>
      some (hmac config.SecretKey (escapeStringToSign (String.intercalate "\n"
        ["POST", config.AmazonServicesURL, e.type ++ e.version, strParams])), st3)

/-! ## Concrete fixtures -/

/-- The fixed example configuration of spec section 8. -/
def exampleConfig : Config :=
  { AmazonServicesURL := "mws.amazonservices.com"
    SellerId := "A1"
    AWSAccessKeyId := "K1"
    SecretKey := "S1"
    MWSAuthToken := "" }

/-- The parameter mapping of the fixed example of spec section 8. -/
def exampleParams : List (String × String) :=
  [("Action", "GetServiceStatus"),
   ("SellerId", "A1"),
   ("AWSAccessKeyId", "K1"),
   ("Timestamp", "2020-01-01T00:00:00Z"),
   ("Version", "2013-09-01")]

/-- A MarketplaceIdList with 25 keys matching the filter pattern. -/
def mp25 : List (String × String) :=
  (List.range 25).map (fun i =>
    ("MarketplaceId.Id." ++ toString (i + 1), "M" ++ toString (i + 1)))

/-! ## Helper lemmas: sorting and association lists -/

theorem insertSorted_perm (a : String) (l : List String) :
    (insertSorted a l).Perm (a :: l) := by
  induction l with
  | nil => simp [insertSorted]
  | cons b rest ih =>
    simp only [insertSorted]
    split
    · exact List.Perm.refl _
    · exact ((ih.cons b).trans (List.Perm.swap a b rest)).symm.symm

theorem sortStrings_perm (l : List String) : (sortStrings l).Perm l := by
  induction l with
  | nil => simp [sortStrings]
  | cons a rest ih =>
    exact (insertSorted_perm a (sortStrings rest)).trans (ih.cons a)

theorem sortStrings_nodup {l : List String} (h : l.Nodup) : (sortStrings l).Nodup :=
  (sortStrings_perm l).nodup_iff.mpr h

theorem mem_sortStrings {l : List String} {k : String} :
    k ∈ sortStrings l ↔ k ∈ l :=
  (sortStrings_perm l).mem_iff

theorem lookupStr_eq_none {k : String} {l : List (String × String)}
    (h : k ∉ l.map (fun p => p.1)) : lookupStr k l = none := by
  induction l with
  | nil => rfl
  | cons p rest ih =>
    simp only [List.map_cons, List.mem_cons, not_or] at h
    rw [lookupStr, if_neg (fun hp => h.1 hp.symm), ih h.2]

theorem lookupStr_isSome_of_mem {k : String} {l : List (String × String)}
    (h : k ∈ l.map (fun p => p.1)) : (lookupStr k l).isSome := by
  induction l with
  | nil => simp at h
  | cons p rest ih =>
    simp only [List.map_cons, List.mem_cons] at h
    by_cases hp : p.1 = k
    · simp [lookupStr, hp]
    · simp only [lookupStr, if_neg hp]
      exact ih (h.resolve_left (fun hk => hp hk.symm))

theorem updateAssoc_map_pair (k0 x : String) (g : String → String) :
    ∀ (S : List String), S.Nodup →
    updateAssoc k0 x (S.map (fun k => (k, g k))) =
      S.map (fun k => (k, if k = k0 then x else g k)) := by
  intro S
  induction S with
  | nil => intro _; rfl
  | cons a rest ih =>
    intro hnd
    simp only [List.map_cons, updateAssoc]
    by_cases ha : a = k0
    · subst ha
      have hnotin : a ∉ rest := (List.nodup_cons.mp hnd).1
      have hmap : rest.map (fun k => (k, if k = a then x else g k)) =
          rest.map (fun k => (k, g k)) := by
        apply List.map_congr_left
        intro k hk
        have hka : k ≠ a := fun h => hnotin (h ▸ hk)
        simp [hka]
      simp [hmap]
    · simp only [if_neg ha, ih (List.nodup_cons.mp hnd).2]

theorem canonicalPairs_eq_spec {params : List (String × String)} {t : String}
    (ht : lookupStr "Timestamp" params = some t)
    (hnd : (params.map (fun p => p.1)).Nodup) :
    canonicalPairs params = some (specCanonicalPairs params) := by
  simp only [canonicalPairs, ht, sortedAssoc, specCanonicalPairs]
  congr 1
  rw [updateAssoc_map_pair _ _ _ _ (sortStrings_nodup hnd), List.map_map]
  apply List.map_congr_left
  intro k hk
  by_cases hkt : k = "Timestamp"
  · subst hkt
    simp [ht, dateCreatedTest, containsSeq, List.isPrefixOf, Function.comp]
  · simp only [Function.comp, if_neg hkt]
    have : (decide (k = "Timestamp") || dateCreatedTest k) = dateCreatedTest k := by
      simp [hkt]
    rw [this]
    split <;> rfl

/-! ## Claim C1 -/

/-- C1: for every parameter mapping (with the Timestamp field the
source unconditionally reads, and the distinct keys a JS object
guarantees), the signature produced by generateSignature equals the
specification's reference definition: keys sorted lexicographically
ascending, colons of the Timestamp / Date / Created values replaced
by %3A, pairs joined as key=value with &, the four-line string-to-sign,
the five whole-string escapes, then the HMAC of the secret key over
that string. -/
theorem c1_generateSignature_matches_reference
    (hmac : String → String → String) (config : Config)
    (params : List (String × String)) (ep : String) (e : EndpointDesc) (t : String)
    (he : endpoint ep = some e)
    (ht : lookupStr "Timestamp" params = some t)
    (hnd : (params.map (fun p => p.1)).Nodup) :
    generateSignature hmac config params ep =
      some (hmac config.SecretKey (specStringToSign config e params)) := by
  rw [generateSignature, stringToSign, he, canonicalParamString,
    canonicalPairs_eq_spec ht hnd]
  rfl

/-- C1 witness: the reference equality evaluated on the example
fixture. -/
theorem c1_witness :
    endpoint "Orders" = some ⟨"/Orders/", "2013-09-01"⟩ ∧
    lookupStr "Timestamp" exampleParams = some "2020-01-01T00:00:00Z" ∧
    (exampleParams.map (fun p => p.1)).Nodup ∧
    generateSignature (fun _ s => s) exampleConfig exampleParams "Orders" =
      some ((fun _ s => s) exampleConfig.SecretKey
        (specStringToSign exampleConfig ⟨"/Orders/", "2013-09-01"⟩ exampleParams)) :=
  ⟨by decide, by decide, by decide,
   c1_generateSignature_matches_reference (fun _ s => s) exampleConfig exampleParams
     "Orders" ⟨"/Orders/", "2013-09-01"⟩ "2020-01-01T00:00:00Z"
     (by decide) (by decide) (by decide)⟩

/-! ## Claim C9 -/

/-- C9: generateSignature leaves the caller's params mapping
unchanged: the colon substitutions act on the local sorted copy only,
so on every path (including the throwing ones) the final value of the
params object is its initial value. -/
theorem c9_generateSignature_params_frame (hmac : String → String → String)
    (config : Config) (params0 : List (String × String)) (ep : String) :
    (generateSignatureTrace hmac config params0 ep).map (fun x => x.2.params) =
      (generateSignatureTrace hmac config params0 ep).map (fun _ => params0) := by
  rw [generateSignatureTrace]
  cases lookupStr "Timestamp" params0
  · rfl
  · cases endpoint ep <;> rfl

/-! ## Claim C5 -/

theorem mpLoop_take_filter :
    ∀ (l : List (String × String)) (c : Nat), c ≤ 20 →
    mpLoop c l = (l.take (21 - c)).filter (fun p => mpMatchStr p.1) := by
  intro l
  induction l with
  | nil => intro c _; simp [mpLoop]
  | cons p rest ih =>
    intro c hc
    rw [mpLoop]
    by_cases hbig : c + 1 > 20
    · have h1 : 21 - c = 1 := by omega
      rw [if_pos hbig, h1]
      cases hm : mpMatchStr p.1 <;> simp [List.filter, hm]
    · have h2 : 21 - c = (20 - c) + 1 := by omega
      rw [if_neg hbig, ih (c + 1) (by omega), h2]
      have h3 : 21 - (c + 1) = 20 - c := by omega
      rw [h3]
      cases hm : mpMatchStr p.1 <;> simp [List.take, List.filter, hm]

/-- C5: the MarketplaceId keys ListOrders forwards are a prefix of
the matching keys of the input list, never more than 20 of them, and
a MarketplaceIdList of 25 matching keys forwards exactly the first
20. -/
theorem c5_listOrders_marketplace_cap (mp : List (String × String)) (a b : String) :
    (∃ t, mp.filter (fun p => mpMatchStr p.1) =
        ((listOrdersParameters a b mp).filter (fun p => mpMatchStr p.1)) ++ t) ∧
    ((listOrdersParameters a b mp).filter (fun p => mpMatchStr p.1)).length ≤ 20 ∧
    (listOrdersParameters a b mp25).filter (fun p => mpMatchStr p.1) = mp25.take 20 := by
  have hforward : ∀ (l : List (String × String)),
      (listOrdersParameters a b l).filter (fun p => mpMatchStr p.1) =
        (l.take 20).filter (fun p => mpMatchStr p.1) := by
    intro l
    have h20 : mpForward l = (l.take 20).filter (fun p => mpMatchStr p.1) := by
      rw [mpForward, mpLoop_take_filter l 1 (by omega)]
    have hca : mpMatchStr "CreatedAfter" = false := by decide
    have hcb : mpMatchStr "CreatedBefore" = false := by decide
    simp [listOrdersParameters, h20, List.filter, hca, hcb, List.filter_filter]
  refine ⟨⟨(mp.drop 20).filter (fun p => mpMatchStr p.1), ?_⟩, ?_, ?_⟩
  · rw [hforward]
    conv_lhs => rw [← List.take_append_drop 20 mp]
    rw [List.filter_append]
  · rw [hforward]
    exact le_trans (List.length_filter_le _ _) (by simp [List.length_take])
  · rw [hforward]
    decide

/-! ## Claim C6 -/

/-- C6: ListOrders with any of CreatedAfter, CreatedBefore or
MarketplaceIdList missing resolves to the single callback invocation
with the descriptive error object and null result (the cbError
outcome), and issues no request: with a function in either callback
position the outcome is cbError, never requested. -/
theorem c6_listOrders_missing_required (hmac : String → String → String)
    (config : Config) (params : OrdersListParams) (flag : Bool) (cb : JsArg) (ts : String)
    (h : params.CreatedAfter = none ∨ params.CreatedBefore = none ∨
      params.MarketplaceIdList = none) :
    ListOrders hmac config params (.boolean flag) .func ts =
      .cbError "You need to pass parameter MarketplaceId and CreatedAfter and CreatedBefore" ∧
    ListOrders hmac config params .func cb ts =
      .cbError "You need to pass parameter MarketplaceId and CreatedAfter and CreatedBefore" := by
  obtain ⟨ca, cbef, mp⟩ := params
  cases ca <;> cases cbef <;> cases mp <;>
    simp_all [ListOrders, resolveXmlCb, callbackOrThrow]

/-- C6 witness. -/
theorem c6_witness :
    ListOrders (fun _ _ => "SIG") exampleConfig ⟨none, some "2020-01-02", some []⟩
        (.boolean false) .func "2020-01-01T00:00:00.000Z" =
      .cbError "You need to pass parameter MarketplaceId and CreatedAfter and CreatedBefore" :=
  (c6_listOrders_missing_required (fun _ _ => "SIG") exampleConfig
    ⟨none, some "2020-01-02", some []⟩ false .func "2020-01-01T00:00:00.000Z"
    (Or.inl rfl)).1

/-! ## Claim C7 (corrected) -/

/-- C7 counterexample: GetServiceStatus called with the xml flag
present but no callback at all (cb slot undefined) does not warn and
does not return early — it issues the HTTPS request, refuting the
claim that every wrapper with an absent callback logs a warning and
makes no request. -/
theorem c7_counterexample_flag_without_callback :
    (GetServiceStatus (fun _ _ => "SIG") exampleConfig (.boolean true) .undefinedArg
      "2020-01-01T00:00:00.000Z").isRequested = true := by
  rfl

/-- C7 as amended: the missing-callback guard is the typeof check on
the xml slot, so each of the five wrappers warns and returns without
any request (and without touching the callback) exactly when the xml
argument slot is undefined — the case in which the wrapper was called
with neither flag nor callback; a callback omitted while a boolean
flag is supplied is not detected. -/
theorem c7_undefined_flag_warns (hmac : String → String → String) (config : Config)
    (ts : String) (cb : JsArg) (p1 : OrdersListParams)
    (p2 p3 p4 : List (String × String)) :
    GetServiceStatus hmac config .undefinedArg cb ts = .warned ∧
    ListOrders hmac config p1 .undefinedArg cb ts = .warned ∧
    ListOrdersByNextToken hmac config p2 .undefinedArg cb ts = .warned ∧
    ListOrderItems hmac config p3 .undefinedArg cb ts = .warned ∧
    ListOrderItemsByNextToken hmac config p4 .undefinedArg cb ts = .warned :=
  ⟨rfl, rfl, rfl, rfl, rfl⟩

/-! ## Helper lemmas: percent-encoding round trip -/

theorem hexVal_hexDigitChar : ∀ n < 16, hexVal (hexDigitChar n) = some n := by decide

theorem hex2_hexDigits {n : Nat} (h : n < 256) :
    hex2 (hexDigitChar (n / 16)) (hexDigitChar (n % 16)) = some n := by
  have hhi := hexVal_hexDigitChar (n / 16) (by omega)
  have hlo := hexVal_hexDigitChar (n % 16) (by omega)
  simp only [hex2, hhi, hlo]
  congr 1
  omega

theorem decodeOne_cons (c : Char) (rest : List Char) :
    decodeOne (c :: rest) = if c = '%' then decodePercentSeq rest else some (c, rest) := rfl

theorem decodePercentSeq_eq {h1 h2 : Char} {b : Nat} (hh : hex2 h1 h2 = some b)
    (rest1 : List Char) :
    decodePercentSeq (h1 :: h2 :: rest1) = decodeByteSeq b rest1 := by
  show decodeWithByte (hex2 h1 h2) rest1 = decodeByteSeq b rest1
  rw [hh]
  rfl

theorem decodeByteSeq_ascii {b : Nat} (hb : b < 128) (rest1 : List Char) :
    decodeByteSeq b rest1 = some (Char.ofNat b, rest1) := by
  unfold decodeByteSeq
  rw [if_pos hb]

theorem encodeChars_cons (c : Char) (rest : List Char) :
    encodeChars (c :: rest) =
      (if isUnreservedURI c then [c]
       else (utf8EncodeChar c).flatMap percentByte) ++ encodeChars rest := by
  simp [encodeChars]

theorem decodeGo_encodeChars :
    ∀ (l : List Char), (∀ c ∈ l, c.toNat < 128) →
    ∀ (fuel : Nat), (encodeChars l).length ≤ fuel →
    decodeCharsGo fuel (encodeChars l) = some l := by
  intro l
  induction l with
  | nil =>
    intro _ fuel _
    show decodeCharsGo fuel [] = some []
    cases fuel <;> rfl
  | cons c rest ih =>
    intro h fuel hfuel
    have hc : c.toNat < 128 := h c (List.mem_cons_self _ _)
    have hrest := ih (fun x hx => h x (List.mem_cons_of_mem _ hx))
    rw [encodeChars_cons] at hfuel ⊢
    by_cases hu : isUnreservedURI c
    · rw [if_pos hu] at hfuel ⊢
      rw [List.singleton_append] at hfuel ⊢
      obtain ⟨f, rfl⟩ : ∃ f, fuel = f + 1 := by
        cases fuel
        · rw [List.length_cons] at hfuel
          omega
        · exact ⟨_, rfl⟩
      have hne : ¬(c = '%') := by
        intro hcp
        rw [hcp] at hu
        exact absurd hu (by decide)
      have hr : decodeCharsGo f (encodeChars rest) = some rest := by
        apply hrest
        rw [List.length_cons] at hfuel
        omega
      simp only [decodeCharsGo, decodeOne_cons, if_neg hne, hr]
    · rw [if_neg hu] at hfuel ⊢
      have hb : utf8EncodeChar c = [c.toNat] := if_pos hc
      rw [hb, List.flatMap_cons, List.flatMap_nil, List.append_nil, percentByte,
        List.cons_append, List.cons_append, List.cons_append,
        List.nil_append] at hfuel ⊢
      obtain ⟨f, rfl⟩ : ∃ f, fuel = f + 1 := by
        cases fuel
        · rw [List.length_cons] at hfuel
          omega
        · exact ⟨_, rfl⟩
      have hh2 : hex2 (hexDigitChar (c.toNat / 16)) (hexDigitChar (c.toNat % 16)) =
          some c.toNat := hex2_hexDigits (by omega)
      have hr : decodeCharsGo f (encodeChars rest) = some rest := by
        apply hrest
        simp only [List.length_cons] at hfuel
        omega
      simp only [decodeCharsGo, decodeOne_cons, eq_self_iff_true, if_true,
        decodePercentSeq_eq hh2, decodeByteSeq_ascii hc, hr, Char.ofNat_toNat]

theorem decodeChars_encodeChars (l : List Char) (h : ∀ c ∈ l, c.toNat < 128) :
    decodeChars (encodeChars l) = some l :=
  decodeGo_encodeChars l h _ le_rfl

/-- decodeURIComponent(encodeURIComponent(s)) = s for ASCII s. -/
theorem decode_encode (s : String) (h : asciiOnly s = true) :
    decodeURIComponent (encodeURIComponent s) = some s := by
  simp only [asciiOnly, List.all_eq_true, decide_eq_true_eq] at h
  rw [decodeURIComponent, encodeURIComponent]
  show (decodeChars (encodeChars s.data)).map _ = some s
  rw [decodeChars_encodeChars s.data h]
  rfl

/-! ## Claim C4 -/

/-- C4: the NextToken value is transmitted in percent-encoded form and
never double-encoded.  First conjunct (the ListOrdersByNextToken
path, where the wrapper has already applied encodeURIComponent): the
decode-then-compare check of the fixed-ordering serializer leaves the
encoded token unchanged.  Second and third conjuncts (the
ListOrderItemsByNextToken path, where the raw caller value reaches
the check): a value that decoding leaves unchanged is encoded, and an
already-percent-encoded value (decoding changes it) is transmitted
unchanged. -/
theorem c4_nextToken_no_double_encoding (raw : String) (h : asciiOnly raw = true) :
    maybeEncode (encodeURIComponent raw) = some (encodeURIComponent raw) ∧
    (decodeURIComponent raw = some raw → maybeEncode raw = some (encodeURIComponent raw)) ∧
    (∀ d, decodeURIComponent raw = some d → d ≠ raw → maybeEncode raw = some raw) := by
  refine ⟨?_, ?_, ?_⟩
  · have hde := decode_encode raw h
    simp only [maybeEncode, hde]
    by_cases he : raw = encodeURIComponent raw
    · rw [if_pos he, ← he, ← he]
    · rw [if_neg he]
  · intro hd
    simp only [maybeEncode, hd]
    simp
  · intro d hd hne
    simp only [maybeEncode, hd, if_neg hne]

/-- C4 witness: the encoded token round-trips unchanged through the
re-encode check on a concrete token with special characters. -/
theorem c4_witness :
    maybeEncode (encodeURIComponent "a:b c") = some (encodeURIComponent "a:b c") :=
  (c4_nextToken_no_double_encoding "a:b c" (by decide)).1

/-! ## Claim C3 -/

theorem lookupStr_perm {l₁ l₂ : List (String × String)} (hp : l₁.Perm l₂) :
    (l₁.map (fun p => p.1)).Nodup → ∀ k, lookupStr k l₁ = lookupStr k l₂ := by
  induction hp with
  | nil => intro _ _; rfl
  | cons x h ih =>
    intro hnd k
    simp only [List.map_cons, List.nodup_cons] at hnd
    by_cases hx : x.1 = k <;> simp [lookupStr, hx, ih hnd.2 k]
  | swap x y l =>
    intro hnd k
    simp only [List.map_cons, List.nodup_cons, List.mem_cons, not_or] at hnd
    have hxy : y.1 ≠ x.1 := hnd.1.1
    by_cases h2 : y.1 = k
    · by_cases h1 : x.1 = k
      · exact absurd (h2.trans h1.symm) hxy
      · simp [lookupStr, h1, h2]
    · by_cases h1 : x.1 = k <;> simp [lookupStr, h1, h2]
  | trans h₁ h₂ ih₁ ih₂ =>
    intro hnd k
    rw [ih₁ hnd k, ih₂ (((h₁.map (fun p => p.1)).nodup_iff).mp hnd) k]

theorem fixedOrderParts_congr {p₁ p₂ : List (String × String)}
    (h : ∀ k, lookupStr k p₁ = lookupStr k p₂) :
    ∀ ks, fixedOrderParts p₁ ks = fixedOrderParts p₂ ks := by
  intro ks
  induction ks with
  | nil => rfl
  | cons k ks ih => simp [fixedOrderParts, h k, ih]

theorem fixedOrderParts_vals (paramObj : List (String × String)) (vals : String → String) :
    ∀ ks, (∀ k ∈ ks, maybeEncode ((lookupStr k paramObj).getD "undefined") = some (vals k)) →
    fixedOrderParts paramObj ks = some (ks.map (fun k => k ++ "=" ++ vals k)) := by
  intro ks
  induction ks with
  | nil => intro _; rfl
  | cons k ks ih =>
    intro h
    simp only [fixedOrderParts, h k (List.mem_cons_self _ _),
      ih (fun x hx => h x (List.mem_cons_of_mem _ hx)), List.map_cons]

/-- C3: the fixed-ordering serialization used for
ListOrdersByNextToken and ListOrderItemsByNextToken does not depend
on the iteration order of the parameter mapping (any permutation of
the mapping serializes identically), and the produced string consists
of exactly the nine keys AWSAccessKeyId, Action, SellerId,
SignatureVersion, Version, Timestamp, Signature, SignatureMethod,
NextToken in that literal order, each key paired with its value run
through the decode-then-compare re-encode check (maybeEncode). -/
theorem c3_fixed_order_serialization (p₁ p₂ : List (String × String))
    (hp : p₁.Perm p₂) (hnd : (p₁.map (fun p => p.1)).Nodup) :
    fixedOrderSerialize p₁ = fixedOrderSerialize p₂ ∧
    ∀ (vals : String → String),
      (∀ k ∈ orderedKeys9, maybeEncode ((lookupStr k p₁).getD "undefined") = some (vals k)) →
      fixedOrderSerialize p₁ =
        some (String.intercalate "&" (orderedKeys9.map (fun k => k ++ "=" ++ vals k))) := by
  constructor
  · rw [fixedOrderSerialize, fixedOrderSerialize,
      fixedOrderParts_congr (lookupStr_perm hp hnd) orderedKeys9]
  · intro vals hv
    rw [fixedOrderSerialize, fixedOrderParts_vals _ vals orderedKeys9 hv]
    rfl

/-- A paramObj as built for a ListOrdersByNextToken request. -/
def c3obj1 : List (String × String) :=
  [("AWSAccessKeyId", "K1"), ("Action", "ListOrdersByNextToken"), ("SellerId", "A1"),
   ("SignatureVersion", "2"), ("Version", "2013-09-01"),
   ("Timestamp", "2020-01-01T00:00:00Z"), ("Signature", "SIG+/="),
   ("SignatureMethod", "HmacSHA256"), ("NextToken", "a%3Ab"), ("MWSAuthToken", "")]

/-- The same mapping with its first two entries in the other order. -/
def c3obj2 : List (String × String) :=
  [("Action", "ListOrdersByNextToken"), ("AWSAccessKeyId", "K1"), ("SellerId", "A1"),
   ("SignatureVersion", "2"), ("Version", "2013-09-01"),
   ("Timestamp", "2020-01-01T00:00:00Z"), ("Signature", "SIG+/="),
   ("SignatureMethod", "HmacSHA256"), ("NextToken", "a%3Ab"), ("MWSAuthToken", "")]

/-- C3 witness: two iteration orders of one concrete mapping
serialize identically. -/
theorem c3_witness : fixedOrderSerialize c3obj1 = fixedOrderSerialize c3obj2 :=
  (c3_fixed_order_serialization c3obj1 c3obj2 (List.Perm.swap _ _ _) (by decide)).1

/-! ## Claim C10 (corrected) -/

theorem mem_updateAssoc {p : String × String} {k v : String} :
    ∀ {l : List (String × String)}, p ∈ updateAssoc k v l → p ∈ l ∨ p = (k, v) := by
  intro l
  induction l with
  | nil => intro h; simp [updateAssoc] at h
  | cons q rest ih =>
    intro h
    rw [updateAssoc] at h
    by_cases hq : q.1 = k
    · rw [if_pos hq] at h
      rcases List.mem_cons.mp h with h | h
      · exact Or.inr h
      · exact Or.inl (List.mem_cons_of_mem _ h)
    · rw [if_neg hq] at h
      rcases List.mem_cons.mp h with h | h
      · exact Or.inl (h ▸ List.mem_cons_self _ _)
      · rcases ih h with h | h
        · exact Or.inl (List.mem_cons_of_mem _ h)
        · exact Or.inr h

theorem mem_setKey {p : String × String} {k v : String} {l : List (String × String)}
    (h : p ∈ setKey l k v) : p ∈ l ∨ p = (k, v) := by
  rw [setKey] at h
  by_cases hk : hasKey k l
  · rw [if_pos hk] at h
    exact mem_updateAssoc h
  · rw [if_neg hk] at h
    rcases List.mem_append.mp h with h | h
    · exact Or.inl h
    · exact Or.inr (List.mem_singleton.mp h)

theorem mem_extendAssoc {p : String × String} :
    ∀ (src dest : List (String × String)), p ∈ extendAssoc dest src → p ∈ dest ∨ p ∈ src := by
  intro src
  induction src with
  | nil => intro dest h; exact Or.inl h
  | cons q rest ih =>
    intro dest h
    rcases ih (setKey dest q.1 q.2) h with h | h
    · rcases mem_setKey h with h | h
      · exact Or.inl h
      · exact Or.inr (h ▸ List.mem_cons_self _ _)
    · exact Or.inr (List.mem_cons_of_mem _ h)

theorem map_fst_updateAssoc (k v : String) :
    ∀ (l : List (String × String)),
    (updateAssoc k v l).map (fun p => p.1) = l.map (fun p => p.1) := by
  intro l
  induction l with
  | nil => rfl
  | cons q rest ih =>
    rw [updateAssoc]
    by_cases hq : q.1 = k
    · rw [if_pos hq]
      simp [hq]
    · rw [if_neg hq]
      simp [ih]

theorem canonicalPairs_map_fst {m cp : List (String × String)}
    (h : canonicalPairs m = some cp) :
    cp.map (fun p => p.1) = sortStrings (m.map (fun p => p.1)) := by
  rw [canonicalPairs] at h
  cases ht : lookupStr "Timestamp" m with
  | none => rw [ht] at h; exact absurd h (by simp)
  | some t =>
    rw [ht] at h
    have hcp := (Option.some.injEq _ _).mp h
    rw [← hcp, List.map_map]
    have h1 : ((fun p : String × String => p.1) ∘
        (fun p : String × String => if dateCreatedTest p.1 then (p.1, substColons p.2) else p)) =
        fun p : String × String => p.1 := by
      funext p
      simp only [Function.comp_apply]
      by_cases hd : dateCreatedTest p.1
      · rw [if_pos hd]
      · rw [if_neg hd]
    rw [h1, map_fst_updateAssoc, sortedAssoc, List.map_map]
    have h2 : ((fun p : String × String => p.1) ∘
        (fun k => (k, (lookupStr k m).getD ""))) = fun k : String => k := rfl
    rw [h2]
    simp

/-- C10 counterexample: through the raw parameter pass-through of
ListOrderItemsByNextToken a caller-supplied Signature entry reaches
paramObj before signing, so the canonical string-to-sign does contain
a key named Signature: the mapping below is exactly the parameters
object that wrapper forwards to createRequest. -/
theorem c10_counterexample_caller_signature_signed :
    "Signature" ∈ ((canonicalPairs (buildParamObj "ListOrderItemsByNextToken" exampleConfig
      "2013-09-01" "2020-01-01T00:00:00Z"
      [("NextToken", "tok"), ("Signature", "evil")])).getD []).map (fun p => p.1) := by
  decide

/-- C10 as amended: createRequest computes the signature over paramObj
before assigning the Signature key, so whenever the operation's own
parameters carry no Signature key (true for every wrapper except the
raw pass-through of ListOrderItemsByNextToken), the canonical
string-to-sign contains no key named Signature. -/
theorem c10_signature_key_not_signed (action : String) (config : Config)
    (ver ts : String) (parameters cp : List (String × String))
    (hs : "Signature" ∉ parameters.map (fun p => p.1))
    (hcp : canonicalPairs (buildParamObj action config ver ts parameters) = some cp) :
    "Signature" ∉ cp.map (fun p => p.1) := by
  rw [canonicalPairs_map_fst hcp, mem_sortStrings]
  intro hmem
  obtain ⟨p, hp, hfst⟩ := List.mem_map.mp hmem
  rcases mem_extendAssoc parameters (fixedParams action config ver ts) hp with h | h
  · have hin : p.1 ∈ (fixedParams action config ver ts).map (fun q => q.1) :=
      List.mem_map.mpr ⟨p, h, rfl⟩
    have hkeys : (fixedParams action config ver ts).map (fun q => q.1) =
        ["Action", "SellerId", "SignatureVersion", "SignatureMethod",
         "Timestamp", "Version", "AWSAccessKeyId", "MWSAuthToken"] := rfl
    rw [hkeys, hfst] at hin
    revert hin
    decide
  · exact hs (hfst ▸ List.mem_map.mpr ⟨p, h, rfl⟩)

/-- C10 witness for the amended statement: a clean parameters object
(the one ListOrdersByNextToken builds) yields a Signature-free
canonical string. -/
theorem c10_witness :
    "Signature" ∉ ((canonicalPairs (buildParamObj "ListOrdersByNextToken" exampleConfig
      "2013-09-01" "2020-01-01T00:00:00Z"
      [("NextToken", "a%3Ab")])).getD []).map (fun p => p.1) :=
  c10_signature_key_not_signed "ListOrdersByNextToken" exampleConfig
    "2013-09-01" "2020-01-01T00:00:00Z" [("NextToken", "a%3Ab")] _
    (by decide) rfl

/-! ## Helper lemmas: reading a query string back -/

theorem char_toNat_lt (c : Char) : c.toNat < 1114112 := by
  rcases c.valid with h | ⟨h1, h2⟩
  · exact lt_trans h (by norm_num)
  · exact h2

theorem utf8EncodeChar_lt_256 (c : Char) : ∀ b ∈ utf8EncodeChar c, b < 256 := by
  intro b hb
  have hc := char_toNat_lt c
  simp only [utf8EncodeChar] at hb
  by_cases h1 : c.toNat < 128
  · rw [if_pos h1] at hb
    simp only [List.mem_singleton] at hb
    omega
  · rw [if_neg h1] at hb
    by_cases h2 : c.toNat < 2048
    · rw [if_pos h2] at hb
      simp only [List.mem_cons, List.not_mem_nil, or_false] at hb
      rcases hb with hb | hb <;> omega
    · rw [if_neg h2] at hb
      by_cases h3 : c.toNat < 65536
      · rw [if_pos h3] at hb
        simp only [List.mem_cons, List.not_mem_nil, or_false] at hb
        rcases hb with hb | hb | hb <;> omega
      · rw [if_neg h3] at hb
        simp only [List.mem_cons, List.not_mem_nil, or_false] at hb
        rcases hb with hb | hb | hb | hb <;> omega

theorem hexDigitChar_safe :
    ∀ n < 16, hexDigitChar n ≠ '&' ∧ hexDigitChar n ≠ '=' ∧ hexDigitChar n ≠ '+' := by
  decide

theorem encodeChars_mem_safe (l : List Char) :
    ∀ x ∈ encodeChars l, x ≠ '&' ∧ x ≠ '=' ∧ x ≠ '+' := by
  intro x hx
  rw [encodeChars, List.mem_flatMap] at hx
  obtain ⟨c, _, hc⟩ := hx
  by_cases hu : isUnreservedURI c
  · rw [if_pos hu, List.mem_singleton] at hc
    subst hc
    refine ⟨?_, ?_, ?_⟩ <;> intro hcc <;> rw [hcc] at hu <;> exact absurd hu (by decide)
  · rw [if_neg hu, List.mem_flatMap] at hc
    obtain ⟨b, hb, hxb⟩ := hc
    have hb256 := utf8EncodeChar_lt_256 c b hb
    rw [percentByte] at hxb
    simp only [List.mem_cons, List.mem_singleton, List.not_mem_nil, or_false] at hxb
    rcases hxb with hxb | hxb | hxb
    · subst hxb; exact ⟨by decide, by decide, by decide⟩
    · subst hxb; exact hexDigitChar_safe (b / 16) (by omega)
    · subst hxb; exact hexDigitChar_safe (b % 16) (by omega)

theorem splitAmp_no_amp : ∀ {l : List Char}, (∀ x ∈ l, ¬(x = '&')) → splitAmp l = [l] := by
  intro l
  induction l with
  | nil => intro _; rfl
  | cons c rest ih =>
    intro h
    rw [splitAmp, if_neg (h c (List.mem_cons_self _ _)),
      ih (fun x hx => h x (List.mem_cons_of_mem _ hx))]

theorem splitAmp_append : ∀ {a : List Char} (b : List Char), (∀ x ∈ a, ¬(x = '&')) →
    splitAmp (a ++ '&' :: b) = a :: splitAmp b := by
  intro a
  induction a with
  | nil =>
    intro b _
    rw [List.nil_append, splitAmp, if_pos rfl]
  | cons c rest ih =>
    intro b h
    rw [List.cons_append, splitAmp, if_neg (h c (List.mem_cons_self _ _)),
      ih b (fun x hx => h x (List.mem_cons_of_mem _ hx))]

theorem splitFirstEq_append : ∀ {k : List Char} (v : List Char), (∀ x ∈ k, ¬(x = '=')) →
    splitFirstEq (k ++ '=' :: v) = (k, v) := by
  intro k
  induction k with
  | nil =>
    intro v _
    rw [List.nil_append, splitFirstEq, if_pos rfl]
  | cons c rest ih =>
    intro v h
    rw [List.cons_append, splitFirstEq, if_neg (h c (List.mem_cons_self _ _)),
      ih v (fun x hx => h x (List.mem_cons_of_mem _ hx))]

theorem plusToSpace_id {l : List Char} (h : ∀ x ∈ l, ¬(x = '+')) : plusToSpace l = l := by
  induction l with
  | nil => rfl
  | cons c rest ih =>
    rw [plusToSpace, List.map_cons, if_neg (h c (List.mem_cons_self _ _))]
    rw [plusToSpace] at ih
    rw [ih (fun x hx => h x (List.mem_cons_of_mem _ hx))]

theorem encPair_data (a b : String) :
    (encodeURIComponent a ++ "=" ++ encodeURIComponent b).data =
      encodeChars a.data ++ '=' :: encodeChars b.data := by
  rw [String.data_append, String.data_append]
  show (encodeChars a.data ++ ['=']) ++ encodeChars b.data = _
  rw [List.append_assoc, List.singleton_append]

theorem parsePart_enc (a b : String) (ha : asciiOnly a = true) (hb : asciiOnly b = true) :
    parsePart (encodeChars a.data ++ '=' :: encodeChars b.data) = some (a, b) := by
  simp only [asciiOnly, List.all_eq_true, decide_eq_true_eq] at ha hb
  rw [parsePart, splitFirstEq_append _
    (fun x hx => (encodeChars_mem_safe a.data x hx).2.1)]
  rw [plusToSpace_id (fun x hx => (encodeChars_mem_safe a.data x hx).2.2),
    plusToSpace_id (fun x hx => (encodeChars_mem_safe b.data x hx).2.2)]
  rw [decodeChars_encodeChars a.data ha, decodeChars_encodeChars b.data hb]

theorem parseQS_qsStringify :
    ∀ (m : List (String × String)), m ≠ [] →
    (∀ p ∈ m, asciiOnly p.1 = true ∧ asciiOnly p.2 = true) →
    parseQS (qsStringify m) = some m := by
  intro m
  induction m with
  | nil => intro h _; exact absurd rfl h
  | cons p rest ih =>
    intro _ h
    have hp := h p (List.mem_cons_self _ _)
    cases rest with
    | nil =>
      rw [qsStringify, parseQS, encPair_data,
        splitAmp_no_amp (fun x hx => ?_)]
      · rw [parseParts, parsePart_enc p.1 p.2 hp.1 hp.2, parseParts]
      · rcases List.mem_append.mp hx with hx | hx
        · exact (encodeChars_mem_safe p.1.data x hx).1
        · rcases List.mem_cons.mp hx with hx | hx
          · rw [hx]; decide
          · exact (encodeChars_mem_safe p.2.data x hx).1
    | cons q rest2 =>
      have hqs : (qsStringify (p :: q :: rest2)).data =
          (encodeChars p.1.data ++ '=' :: encodeChars p.2.data) ++
            '&' :: (qsStringify (q :: rest2)).data := by
        show (encodeURIComponent p.1 ++ "=" ++ encodeURIComponent p.2 ++ "&" ++
          qsStringify (q :: rest2)).data = _
        simp only [String.data_append]
        rw [show (encodeURIComponent p.1).data = encodeChars p.1.data from rfl,
          show (encodeURIComponent p.2).data = encodeChars p.2.data from rfl]
        simp [List.append_assoc]
      have hfree : ∀ x ∈ encodeChars p.1.data ++ '=' :: encodeChars p.2.data, ¬(x = '&') := by
        intro x hx
        rcases List.mem_append.mp hx with hx | hx
        · exact (encodeChars_mem_safe p.1.data x hx).1
        · rcases List.mem_cons.mp hx with hx | hx
          · rw [hx]; decide
          · exact (encodeChars_mem_safe p.2.data x hx).1
      have hihres := ih (by simp) (fun x hx => h x (List.mem_cons_of_mem _ hx))
      rw [parseQS] at hihres
      rw [parseQS, hqs, splitAmp_append _ hfree, parseParts,
        parsePart_enc p.1 p.2 hp.1 hp.2, hihres]

theorem length_updateAssoc (k v : String) :
    ∀ l : List (String × String), (updateAssoc k v l).length = l.length := by
  intro l
  induction l with
  | nil => rfl
  | cons q rest ih =>
    rw [updateAssoc]
    by_cases hq : q.1 = k
    · rw [if_pos hq, List.length_cons, List.length_cons]
    · rw [if_neg hq, List.length_cons, List.length_cons, ih]

theorem length_le_setKey (l : List (String × String)) (k v : String) :
    l.length ≤ (setKey l k v).length := by
  rw [setKey]
  by_cases hk : hasKey k l
  · rw [if_pos hk, length_updateAssoc]
  · rw [if_neg hk, List.length_append]
    omega

theorem length_le_extendAssoc :
    ∀ (src dest : List (String × String)), dest.length ≤ (extendAssoc dest src).length := by
  intro src
  induction src with
  | nil => intro dest; exact le_refl _
  | cons q rest ih =>
    intro dest
    exact le_trans (length_le_setKey dest q.1 q.2) (ih (setKey dest q.1 q.2))

/-! ## Claim C2 (corrected) -/

/-- C2 counterexample: for a plain GetServiceStatus request the
transmitted body (qs.stringify of paramObj in insertion order with
full URL-encoding, Signature appended) is not the sorted, selectively
escaped canonical parameter string the signature was computed over —
the two representations diverge textually. -/
theorem c2_counterexample_transmitted_differs_from_signed :
    ((createRequest hmacSHA256B64 "GetServiceStatus" exampleConfig [] "Orders"
        "2020-01-01T00:00:00.123Z").getD ⟨"", "", ""⟩).body ≠
      (canonicalParamString (buildParamObj "GetServiceStatus" exampleConfig "2013-09-01"
        "2020-01-01T00:00:00Z" [])).getD "" := by
  decide

/-- C2 as amended: for every non-special request (no fixed-ordering
action, no feed upload), the transmitted parameter string and the
signed canonical string serialize the same parameter mapping — the
body is the insertion-ordered URL-encoded rendering of exactly the
mapping the signature was computed over plus the appended Signature
pair, and decoding the body recovers that mapping — but the two
strings themselves differ in general (key order and escaping), as the
counterexample shows.  ASCII hypotheses reflect the API's inputs; the
HMAC primitive is abstract with an ASCII-output hypothesis satisfied
by base64. -/
theorem c2_transmitted_decodes_to_signed_mapping
    (hmac : String → String → String) (action : String) (config : Config)
    (parameters : List (String × String)) (tp : String) (tstampRaw : String)
    (e : EndpointDesc) (req : HttpRequest)
    (hna : action ≠ "ListOrdersByNextToken") (hnb : action ≠ "ListOrderItemsByNextToken")
    (hnf : lookupStr "FeedContents" parameters = none)
    (he : endpoint tp = some e)
    (hascii : ∀ p ∈ buildParamObj action config e.version (stripFrac tstampRaw ++ "Z")
        parameters, asciiOnly p.1 = true ∧ asciiOnly p.2 = true)
    (hsig : ∀ s, asciiOnly (hmac config.SecretKey s) = true)
    (hreq : createRequest hmac action config parameters tp tstampRaw = some req) :
    parseQS req.body =
      some (extendAssoc
        (buildParamObj action config e.version (stripFrac tstampRaw ++ "Z") parameters)
        [("Signature",
          (generateSignature hmac config
            (buildParamObj action config e.version (stripFrac tstampRaw ++ "Z") parameters)
            tp).getD "")]) := by
  simp only [createRequest, hnf, he] at hreq
  cases hgs : generateSignature hmac config
      (buildParamObj action config e.version (stripFrac tstampRaw ++ "Z") parameters) tp with
  | none =>
    rw [hgs] at hreq
    exact absurd hreq (by simp)
  | some sig =>
    rw [hgs] at hreq
    simp only [if_neg (not_or.mpr ⟨hna, hnb⟩), Option.some.injEq] at hreq
    have hbody : req.body = qsStringify (extendAssoc
        (buildParamObj action config e.version (stripFrac tstampRaw ++ "Z") parameters)
        [("Signature", sig)]) := by
      rw [← hreq]
    rw [hbody, Option.getD_some]
    apply parseQS_qsStringify
    · intro hnil
      have hlen := length_le_extendAssoc [("Signature", sig)]
        (buildParamObj action config e.version (stripFrac tstampRaw ++ "Z") parameters)
      have hlen2 := length_le_extendAssoc parameters
        (fixedParams action config e.version (stripFrac tstampRaw ++ "Z"))
      rw [hnil] at hlen
      simp only [List.length_nil, Nat.le_zero] at hlen
      rw [buildParamObj] at hlen
      rw [hlen] at hlen2
      simp [fixedParams] at hlen2
    · intro p hp
      rcases mem_extendAssoc _ _ hp with h | h
      · exact hascii p h
      · rw [List.mem_singleton] at h
        subst h
        refine ⟨?_, ?_⟩
        · show asciiOnly "Signature" = true
          decide
        rw [generateSignature] at hgs
        cases hst : stringToSign config
            (buildParamObj action config e.version (stripFrac tstampRaw ++ "Z") parameters)
            tp with
        | none => rw [hst] at hgs; exact absurd hgs (by simp)
        | some str =>
          rw [hst] at hgs
          simp only [Option.map, Option.some.injEq] at hgs
          rw [← hgs]
          exact hsig str

/-- C2 witness: the amended statement evaluated on a concrete
GetServiceStatus request (an arbitrary HMAC stub; the property does
not depend on the digest value). -/
theorem c2_witness :
    parseQS (((createRequest (fun _ _ => "SIG") "GetServiceStatus" exampleConfig []
        "Orders" "2020-01-01T00:00:00.123Z").getD ⟨"", "", ""⟩).body) =
      some (extendAssoc
        (buildParamObj "GetServiceStatus" exampleConfig "2013-09-01"
          (stripFrac "2020-01-01T00:00:00.123Z" ++ "Z") [])
        [("Signature",
          (generateSignature (fun _ _ => "SIG") exampleConfig
            (buildParamObj "GetServiceStatus" exampleConfig "2013-09-01"
              (stripFrac "2020-01-01T00:00:00.123Z" ++ "Z") [])
            "Orders").getD "")]) :=
  c2_transmitted_decodes_to_signed_mapping (fun _ _ => "SIG") "GetServiceStatus"
    exampleConfig [] "Orders" "2020-01-01T00:00:00.123Z" ⟨"/Orders/", "2013-09-01"⟩
    ((createRequest (fun _ _ => "SIG") "GetServiceStatus" exampleConfig []
        "Orders" "2020-01-01T00:00:00.123Z").getD ⟨"", "", ""⟩)
    (by decide) (by decide) rfl (by decide)
    (by decide) (fun _ => rfl) rfl

/-! ## Claim C8 -/

set_option maxRecDepth 100000
set_option maxHeartbeats 4000000

/-- The concrete signature of the example fixture (evaluated through
the bit-level HMAC-SHA-256 and base64 of node's crypto module). -/
theorem c8sig_base :
    generateSignature hmacSHA256B64 exampleConfig exampleParams "Orders" =
      some "8V3491D6Lb7g1E2S/qGO8UdYertx5RImAUHdlH4cZZo=" := by decide

/-- The signature after changing the Action value. -/
theorem c8sig_action :
    generateSignature hmacSHA256B64 exampleConfig
        (updateAssoc "Action" "GetServiceStatusX" exampleParams) "Orders" =
      some "6P8qNbbX5oVf1MenYk87S4/qcaaX8AB5vcClGsRMoPw=" := by decide

/-- The signature after changing the SellerId value. -/
theorem c8sig_sellerId :
    generateSignature hmacSHA256B64 exampleConfig
        (updateAssoc "SellerId" "A1X" exampleParams) "Orders" =
      some "ITsIgsJCL7MWZLQwB7Wq/f6Vf9HZ2ZdmCdTGi59K9Rc=" := by decide

/-- The signature after changing the AWSAccessKeyId value. -/
theorem c8sig_accessKey :
    generateSignature hmacSHA256B64 exampleConfig
        (updateAssoc "AWSAccessKeyId" "K1X" exampleParams) "Orders" =
      some "zpgK7iyEBBqIMLeYtuIcB5AXCKdz5xbMOnTbhyT7hmg=" := by decide

/-- The signature after changing the Timestamp value. -/
theorem c8sig_timestamp :
    generateSignature hmacSHA256B64 exampleConfig
        (updateAssoc "Timestamp" "2020-01-01T00:00:00ZX" exampleParams) "Orders" =
      some "GjEBtVfzRTFUfQ7aN2wFYVC2V/tBc/Xt1tsN+i9vnI8=" := by decide

/-- The signature after changing the Version value. -/
theorem c8sig_version :
    generateSignature hmacSHA256B64 exampleConfig
        (updateAssoc "Version" "2013-09-01X" exampleParams) "Orders" =
      some "mSkctj29cBCJdYEvWAdcbmOX3P4Z+ss8iJFwhY+h5Ec=" := by decide

/-- C8: on the fixed example configuration, two invocations of
generateSignature (realized with the bit-level HMAC-SHA-256 and
base64 of node's crypto module) yield syntactically identical,
byte-identical signatures, and changing any single one of the five
parameter values (here: appending one character) yields a different
signature: the perturbed signatures, evaluated above, all differ from
the base signature. -/
theorem c8_signature_determinism_and_sensitivity :
    generateSignature hmacSHA256B64 exampleConfig exampleParams "Orders" =
      generateSignature hmacSHA256B64 exampleConfig exampleParams "Orders" ∧
    generateSignature hmacSHA256B64 exampleConfig
        (updateAssoc "Action" "GetServiceStatusX" exampleParams) "Orders" ≠
      generateSignature hmacSHA256B64 exampleConfig exampleParams "Orders" ∧
    generateSignature hmacSHA256B64 exampleConfig
        (updateAssoc "SellerId" "A1X" exampleParams) "Orders" ≠
      generateSignature hmacSHA256B64 exampleConfig exampleParams "Orders" ∧
    generateSignature hmacSHA256B64 exampleConfig
        (updateAssoc "AWSAccessKeyId" "K1X" exampleParams) "Orders" ≠
      generateSignature hmacSHA256B64 exampleConfig exampleParams "Orders" ∧
    generateSignature hmacSHA256B64 exampleConfig
        (updateAssoc "Timestamp" "2020-01-01T00:00:00ZX" exampleParams) "Orders" ≠
      generateSignature hmacSHA256B64 exampleConfig exampleParams "Orders" ∧
    generateSignature hmacSHA256B64 exampleConfig
        (updateAssoc "Version" "2013-09-01X" exampleParams) "Orders" ≠
      generateSignature hmacSHA256B64 exampleConfig exampleParams "Orders" :=
  ⟨rfl,
   fun h => absurd (c8sig_action.symm.trans (h.trans c8sig_base)) (by decide),
   fun h => absurd (c8sig_sellerId.symm.trans (h.trans c8sig_base)) (by decide),
   fun h => absurd (c8sig_accessKey.symm.trans (h.trans c8sig_base)) (by decide),
   fun h => absurd (c8sig_timestamp.symm.trans (h.trans c8sig_base)) (by decide),
   fun h => absurd (c8sig_version.symm.trans (h.trans c8sig_base)) (by decide)⟩

end Mws
